import Mathlib

/-!
Verification of the GitHub candidate finder (two variants of the
`GithubCandidateFinder` pipeline: the Streamlit variant in
`github_scraper.py` and the FastAPI variant in `api/main.py`).

The embedding models the pure computations of the pipeline directly and
models every network / browser interaction (GitHub REST API calls and
Selenium page loads) as an explicit outcome parameter: every such call
either returns the parsed value the code would have extracted, or an
exception kind.  Python floats are modelled by `ℚ`, Python's `round`
(banker's rounding) by `pythonRound2`, CPython's stable `sorted`/`list.sort`
with `reverse=True` by the stable descending insertion sort
`sortByScoreDesc`.
-/

/-- Exception kinds relevant to the pipeline.  `authError` models
`BadCredentialsException`, `rateLimit` models `RateLimitExceededException`,
`timeout` models a Selenium `TimeoutException`, `noSuchElement` a missing
page element, `invalidRequest` the `InvalidRequestError` the spec mentions
(no code path raises it), and `other` any other exception. -/
inductive ErrKind where
  | invalidRequest
  | authError
  | rateLimit
  | timeout
  | noSuchElement
  | other
deriving DecidableEq

deriving instance DecidableEq for Except

/-- Python `a or b` for strings / optional strings: `None` and `""` are
falsy, so the default is used for both. -/
def pythonOrStr (o : Option String) (d : String) : String :=
  match o with
  | none => d
  | some s => if s = "" then d else s

/-- A regex `\w` character (ASCII fragment): letter, digit or underscore. -/
def wordChar (c : Char) : Bool := c.isAlphanum || c == '_'

/-- Accumulator-based scan producing the maximal runs of word characters,
i.e. the matches of `re.findall(r'\w+', ·)`. -/
def findWordRunsAux : List Char → List Char → List String
  | [], acc => if acc.isEmpty then [] else [String.mk acc.reverse]
  | c :: rest, acc =>
    if wordChar c then findWordRunsAux rest (c :: acc)
    else if acc.isEmpty then findWordRunsAux rest []
    else String.mk acc.reverse :: findWordRunsAux rest []

/-- `re.findall(r'\w+', s.lower())`: the word tokens of `s`, lowercased. -/
def wordTokens (s : String) : List String :=
  findWordRunsAux (s.toList.map Char.toLower) []

/-- Python `str.strip()`: drop leading and trailing whitespace. -/
def pyStrip (s : String) : String :=
  String.mk (((s.toList.dropWhile Char.isWhitespace).reverse.dropWhile
    Char.isWhitespace).reverse)

/-- `int` of a non-empty string of decimal digits. -/
def digitsToNat (ds : List Char) : Nat :=
  ds.foldl (fun n c => n * 10 + (c.toNat - 48)) 0

/-- `re.search(r'\d+', text)`: the first maximal run of digits, if any. -/
def firstDigitRun : List Char → Option (List Char)
  | [] => none
  | c :: rest =>
    if c.isDigit then some (c :: rest.takeWhile Char.isDigit)
    else firstDigitRun rest

/-- Round-half-to-even to an integer, as CPython's `round` does. -/
def bankersRound (x : ℚ) : ℤ :=
  if x - ⌊x⌋ < 1/2 then ⌊x⌋
  else if 1/2 < x - ⌊x⌋ then ⌊x⌋ + 1
  else if Even ⌊x⌋ then ⌊x⌋ else ⌊x⌋ + 1

/-- Python `round(x, 2)`. -/
def pythonRound2 (x : ℚ) : ℚ := (bankersRound (x * 100) : ℚ) / 100

/-- One `Counter[s] += 1` step on an insertion-ordered association list. -/
def bump : List (String × Nat) → String → List (String × Nat)
  | [], s => [(s, 1)]
  | (t, n) :: rest, s =>
    if t = s then (t, n + 1) :: rest else (t, n) :: bump rest s

/-- `collections.Counter` of a list of strings, keeping insertion order
(as `dict`/`Counter` iteration does). -/
def countOcc (xs : List String) : List (String × Nat) := xs.foldl bump []

/-- Insert `x` into a list sorted descending by `key`, after every element
whose key is ≥ `key x` (so that elements processed earlier stay first on
ties, as CPython's stable sort guarantees). -/
def insertDesc {α β : Type} [LinearOrder β] (key : α → β) (x : α) :
    List α → List α
  | [] => [x]
  | y :: ys => if key x ≤ key y then y :: insertDesc key x ys else x :: y :: ys

/-- Model of CPython `sorted(l, key=key, reverse=True)` / in-place
`l.sort(key=key, reverse=True)`: a stable descending sort. -/
def sortByScoreDesc {α β : Type} [LinearOrder β] (key : α → β)
    (l : List α) : List α :=
  l.foldl (fun acc x => insertDesc key x acc) []

/-- The `for u in users: try: ... candidates.append(f(u)) except: continue`
accumulation pattern shared by both `search_candidates` loops. -/
def appendLoop {ι γ : Type} (f : ι → Option γ) (users : List ι) : List γ :=
  users.foldl (fun acc u =>
    match f u with
    | none => acc
    | some c => acc ++ [c]) []

/-- `Counter.most_common(n)`: sort items descending by count (stable on
insertion order) and keep the first `n`. -/
def mostCommon (l : List (String × Nat)) (n : Nat) : List (String × Nat) :=
  (sortByScoreDesc (fun p => p.2) l).take n

/-! ## Streamlit variant (`github_scraper.py`) -/

/-- The `user_data` dict of `github_scraper.py:search_candidates` at the
time `calculate_score` is called (lines 265-281).  `bio`/`location` are the
raw API values, which may be `None`. -/
structure StUserData where
  login : String
  name : String
  bio : Option String
  loc : Option String
  public_repos : Nat
  followers : Nat
  profile_url : String
  languages : List (String × Nat)
  contributions : Nat
  pinned_repos : List String
  contribution_streak : String
deriving DecidableEq

/-- The explanation line `f"Bio matches {n} key terms (+{t})"`. -/
def bioLine (n t : Nat) : String := s!"Bio matches {n} key terms (+{t})"

/-- The explanation line `f"Uses {n} languages (+{t})"`. -/
def langLine (n t : Nat) : String := s!"Uses {n} languages (+{t})"

/-- The explanation line `f"Has {n} contributions (+{t})"`. -/
def contribLine (n t : Nat) : String := s!"Has {n} contributions (+{t})"

/-- The explanation line `f"Has {n} public repos (+{t})"`. -/
def repoLine (n t : Nat) : String := s!"Has {n} public repos (+{t})"

/-- The explanation line `f"Has {n} followers (+{t})"`. -/
def followerLine (n t : Nat) : String := s!"Has {n} followers (+{t})"

/-- The bio-match block of `github_scraper.py:calculate_score`
(lines 144-151): if the bio is truthy, intersect the requirement's word
set with the bio's word set; if the intersection is non-empty add
`len(matching_terms) * 10` points and one explanation line. -/
def bioScoreSt (bio : Option String) (req : String) : Nat × List String :=
  match bio with
  | some b =>
    if b ≠ "" then
      let key_terms := (wordTokens req).toFinset
      let bio_terms := (wordTokens b).toFinset
      let matching_terms := key_terms ∩ bio_terms
      if matching_terms.card ≠ 0 then
        (matching_terms.card * 10,
         [bioLine matching_terms.card (matching_terms.card * 10)])
      else (0, [])
    else (0, [])
  | none => (0, [])

/-- The keyword-overlap subtotal of the Streamlit `calculate_score`. -/
def bioSubtotalSt (bio : Option String) (req : String) : Nat :=
  (bioScoreSt bio req).1

/-- `len(matching_terms)` when the bio is truthy, else 0. -/
def bioMatchCountSt (bio : Option String) (req : String) : Nat :=
  match bio with
  | none => 0
  | some b =>
    if b = "" then 0
    else ((wordTokens req).toFinset ∩ (wordTokens b).toFinset).card

/-- `github_scraper.py:calculate_score` (lines 133-176): score plus the
explanation list (the code returns the list joined with `" | "`; the list
itself is exposed here, `String.intercalate " | "` is applied by the
caller model). -/
def calcScoreExplSt (d : StUserData) (req : String) : Nat × List String :=
  let bioResult := bioScoreSt d.bio req
  let lang_score := min (d.languages.length * 5) 25
  let contrib_score := min (d.contributions / 100) 25
  let repo_score := min (d.public_repos * 2) 25
  let follower_score := min (d.followers / 10) 25
  let score := bioResult.1 + lang_score + contrib_score + repo_score +
    follower_score
  (min score 100,
   bioResult.2 ++
     [langLine d.languages.length lang_score,
      contribLine d.contributions contrib_score,
      repoLine d.public_repos repo_score,
      followerLine d.followers follower_score])

/-- The fields read from the PyGithub lazy `user` object inside the
per-candidate `try` of `github_scraper.py:search_candidates`. -/
structure StApiFields where
  login : String
  name : Option String
  bio : Option String
  loc : Option String
  public_repos : Nat
  followers : Nat
deriving DecidableEq

/-- Outcomes of the two independent element extractions inside a
successfully loaded profile page in `github_scraper.py:get_user_details`
(each wrapped in its own `try`/`except: pass`). -/
structure StDetailsPage where
  pinnedOutcome : Except ErrKind (List String)
  streakOutcome : Except ErrKind String
deriving DecidableEq

/-- The scraped pinned / streak record of `github_scraper.py`. -/
structure StDetails where
  pinned_repos : List String
  contribution_streak : String
deriving DecidableEq

/-- One candidate's fetch outcomes for a Streamlit run: the API field
access outcome plus the three Selenium fetch outcomes.  The Selenium
oracle values are the parsed page contents the code would extract. -/
structure StCandInput where
  apiOutcome : Except ErrKind StApiFields
  langsOutcome : Except ErrKind (List String)
  contribOutcome : Except ErrKind String
  detailsOutcome : Except ErrKind StDetailsPage
deriving DecidableEq

/-- `github_scraper.py:get_user_languages` (lines 178-197): on success,
count the non-empty stripped `[itemprop="programmingLanguage"]` element
texts and keep the top five (`Counter.most_common(5)`); on any exception
return `{}`. -/
def getUserLanguagesSt (o : Except ErrKind (List String)) :
    List (String × Nat) :=
  match o with
  | .error _ => []
  | .ok texts =>
    mostCommon (countOcc ((texts.map pyStrip).filter (fun t => t ≠ ""))) 5

/-- `github_scraper.py:get_contribution_count` (lines 199-218): on success
join every digit of the heading text and parse it (`0` if there is none);
on any exception return `0`. -/
def getContributionCountSt (o : Except ErrKind String) : Nat :=
  match o with
  | .error _ => 0
  | .ok text =>
    let ds := text.toList.filter Char.isDigit
    if ds.isEmpty then 0 else digitsToNat ds

/-- `github_scraper.py:get_user_details` (lines 220-249): on page-load
failure return the all-default record; otherwise each extraction defaults
independently (`[]` for pinned repos — at most six are kept — and `"N/A"`
for the streak). -/
def getUserDetailsSt (o : Except ErrKind StDetailsPage) : StDetails :=
  match o with
  | .error _ => { pinned_repos := [], contribution_streak := "N/A" }
  | .ok p =>
    { pinned_repos :=
        match p.pinnedOutcome with
        | .ok l => l.take 6
        | .error _ => []
      contribution_streak :=
        match p.streakOutcome with
        | .ok s => s
        | .error _ => "N/A" }

/-- A finished Streamlit candidate dict: the merged `user_data` plus the
`score`/`explanation` entries added by `user_data.update(analysis)`. -/
structure StCandidate where
  data : StUserData
  score : Nat
  explanation : String
deriving DecidableEq

/-- The body of the per-candidate `try` of
`github_scraper.py:search_candidates` (lines 263-287): build `user_data`
from the API fields, enrich with the three Selenium fetches (which never
raise), score, and return the candidate; `none` when the API field access
raised (the `except ...: continue` branch). -/
def processUserSt (req : String) (i : StCandInput) : Option StCandidate :=
  match i.apiOutcome with
  | .error _ => none
  | .ok fields =>
    let details := getUserDetailsSt i.detailsOutcome
    let data : StUserData :=
      { login := fields.login
        name := pythonOrStr fields.name fields.login
        bio := fields.bio
        loc := fields.loc
        public_repos := fields.public_repos
        followers := fields.followers
        profile_url := "https://github.com/" ++ fields.login
        languages := getUserLanguagesSt i.langsOutcome
        contributions := getContributionCountSt i.contribOutcome
        pinned_repos := details.pinned_repos
        contribution_streak := details.contribution_streak }
    let analysis := calcScoreExplSt data req
    some { data := data, score := analysis.1,
           explanation := String.intercalate " | " analysis.2 }

/-- The candidate loop of `github_scraper.py:search_candidates`. -/
def searchLoopSt (req : String) (users : List StCandInput) :
    List StCandidate :=
  appendLoop (processUserSt req) users

/-- Query building of `github_scraper.py:search_candidates`
(lines 253-257): requirement plus optional truthy filters. -/
def buildQuerySt (req : String) (loc lang : Option String) : String :=
  let q := req
  let q1 :=
    match loc with
    | some s => if s = "" then q else q ++ " location:" ++ s
    | none => q
  match lang with
  | some s => if s = "" then q1 else q1 ++ " language:" ++ s
  | none => q1

/-- `github_scraper.py:search_candidates` (lines 251-294): build the
query, run the user search (whose failure propagates — there is no
enclosing handler), process the first `limit` users with per-candidate
fault isolation, and return the candidates sorted descending by score. -/
def searchCandidatesSt (searchUsers : String → Except ErrKind (List StCandInput))
    (req : String) (loc lang : Option String) (limit : Nat) :
    Except ErrKind (List StCandidate) :=
  match searchUsers (buildQuerySt req loc lang) with
  | .error e => .error e
  | .ok users =>
    .ok (sortByScoreDesc (fun c => c.score) (searchLoopSt req (users.take limit)))

/-! ## FastAPI variant (`api/main.py`) -/

/-- The fields read from the PyGithub `user` object in
`api/main.py:get_user_details`. -/
structure ApiFields where
  login : String
  name : Option String
  bio : Option String
  loc : Option String
  public_repos : Nat
  followers : Nat
  html_url : String
deriving DecidableEq

/-- One candidate's fetch outcomes for a FastAPI run: the API user fetch,
the two Selenium element extractions of `get_user_details` (which
propagate on failure), the repository-language listing used by
`get_user_languages`, and the heading text used by
`get_contribution_count` (each of the last two defaults on failure). -/
structure ApiCandInput where
  apiOutcome : Except ErrKind ApiFields
  pinnedOutcome : Except ErrKind (List String)
  streakOutcome : Except ErrKind String
  reposOutcome : Except ErrKind (List (Option String))
  contribOutcome : Except ErrKind String
deriving DecidableEq

/-- The details dict of `api/main.py:get_user_details` (lines 164-175). -/
structure ApiDetails where
  name : String
  bio : String
  loc : String
  languages : List (String × Nat)
  contributions : Nat
  public_repos : Nat
  followers : Nat
  pinned_repos : List String
  contribution_streak : String
  profile_url : String
deriving DecidableEq

/-- `api/main.py:get_user_languages` (lines 78-92): count the truthy
`repo.language` values over all repositories; `{}` on any exception. -/
def getUserLanguagesApi (o : Except ErrKind (List (Option String))) :
    List (String × Nat) :=
  match o with
  | .error _ => []
  | .ok repoLangs => countOcc ((repoLangs.filterMap id).filter (fun s => s ≠ ""))

/-- `api/main.py:get_contribution_count` (lines 94-112): `re.search(r'\d+')`
on the heading text, `0` when absent or on any exception. -/
def getContribCountApi (o : Except ErrKind String) : Nat :=
  match o with
  | .error _ => 0
  | .ok text =>
    match firstDigitRun text.toList with
    | some ds => digitsToNat ds
    | none => 0

/-- `api/main.py:get_user_details` (lines 146-178): unlike the Streamlit
variant this function logs and RE-RAISES on failure — the user fetch, the
pinned-repositories wait and the streak element lookup each propagate
their exception.  On success, `name` falls back to the login and
`bio`/`location` default to `""` (Python `or`). -/
def getUserDetailsApi (i : ApiCandInput) : Except ErrKind ApiDetails :=
  match i.apiOutcome with
  | .error e => .error e
  | .ok u =>
    match i.pinnedOutcome with
    | .error e => .error e
    | .ok pinned =>
      match i.streakOutcome with
      | .error e => .error e
      | .ok streak =>
        .ok { name := pythonOrStr u.name u.login
              bio := pythonOrStr u.bio ""
              loc := pythonOrStr u.loc ""
              languages := getUserLanguagesApi i.reposOutcome
              contributions := getContribCountApi i.contribOutcome
              public_repos := u.public_repos
              followers := u.followers
              pinned_repos := pinned
              contribution_streak := streak
              profile_url := u.html_url }

/-- `api/main.py:calculate_score` (lines 114-144): capped weighted sum in
float arithmetic (modelled exactly over `ℚ`), clamped to 100 and rounded
to two decimals.  Note it takes no requirement argument. -/
def calculateScoreApi (d : ApiDetails) : ℚ :=
  pythonRound2 (min (
    (min (d.public_repos : ℚ) 50) / 50 * 20
    + (min (d.followers : ℚ) 1000) / 1000 * 15
    + (min (d.contributions : ℚ) 1000) / 1000 * 25
    + min ((d.languages.length : ℚ) / 10 * 20) 20
    + (if d.bio ≠ "" then (5 : ℚ) else 0)
    + (if d.loc ≠ "" then (5 : ℚ) else 0)
    + (d.pinned_repos.length : ℚ) / 6 * 10) 100)

/-- A finished FastAPI candidate: `{**details, 'score': …,
'explanation': f"Matched based on {requirement}"}`
(`api/main.py` lines 191-198). -/
structure ApiCandidate where
  details : ApiDetails
  score : ℚ
  explanation : String
deriving DecidableEq

/-- Candidate construction of `api/main.py:search_candidates`
(lines 191-198). -/
def mkCandidateApi (d : ApiDetails) (req : String) : ApiCandidate :=
  { details := d
    score := calculateScoreApi d
    explanation := "Matched based on " ++ req }

/-- The body of the per-candidate `try` of
`api/main.py:search_candidates`: `none` when `get_user_details` raised
(the `except ...: continue` branch catches every exception, including
authentication errors). -/
def processUserApi (req : String) (i : ApiCandInput) : Option ApiCandidate :=
  match getUserDetailsApi i with
  | .error _ => none
  | .ok d => some (mkCandidateApi d req)

/-- The candidate loop of `api/main.py:search_candidates`. -/
def searchLoopApi (req : String) (users : List ApiCandInput) :
    List ApiCandidate :=
  appendLoop (processUserApi req) users

/-- `api/main.py:search_candidates` (lines 180-210): build the query
`f"{requirement} type:user"`, run the user search (the outer handler logs
and re-raises, so a search failure propagates), process the first ten
users with per-candidate fault isolation, and sort descending by score. -/
def searchCandidatesApi
    (searchUsers : String → Except ErrKind (List ApiCandInput))
    (req : String) : Except ErrKind (List ApiCandidate) :=
  match searchUsers (req ++ " type:user") with
  | .error e => .error e
  | .ok users =>
    .ok (sortByScoreDesc (fun c => c.score) (searchLoopApi req (users.take 10)))

/-- Re-labelling a FastAPI candidate's explanation with another
requirement; used to relate runs that differ only in the requirement. -/
def reExplApi (req : String) (c : ApiCandidate) : ApiCandidate :=
  { c with explanation := "Matched based on " ++ req }

/-! ## Concrete sample inputs used by counterexamples and witnesses -/

/-- A candidate whose structured-source fetch raises a bad-credentials
error (claim C2). -/
def authFailInput : ApiCandInput :=
  { apiOutcome := .error .authError
    pinnedOutcome := .ok []
    streakOutcome := .ok ""
    reposOutcome := .ok []
    contribOutcome := .ok "" }

/-- Structured fields of a candidate that fully succeeds (claim C2). -/
def aliceFields : ApiFields :=
  { login := "alice", name := none, bio := none, loc := none
    public_repos := 0, followers := 0
    html_url := "https://github.com/alice" }

/-- A candidate whose every fetch succeeds (claim C2). -/
def aliceInput : ApiCandInput :=
  { apiOutcome := .ok aliceFields
    pinnedOutcome := .ok []
    streakOutcome := .ok "ok"
    reposOutcome := .ok []
    contribOutcome := .ok "" }

/-- The details dict the FastAPI pipeline builds for `aliceInput`. -/
def aliceDetails : ApiDetails :=
  { name := "alice", bio := "", loc := "", languages := []
    contributions := 0, public_repos := 0, followers := 0
    pinned_repos := [], contribution_streak := "ok"
    profile_url := "https://github.com/alice" }

/-- Structured fields of a candidate whose scraped fetch will time out
(claim C3). -/
def bobFields : ApiFields :=
  { login := "bob", name := some "Bob", bio := some "ML engineer"
    loc := some "Remote", public_repos := 3, followers := 7
    html_url := "https://github.com/bob" }

/-- A FastAPI candidate whose pinned-repositories wait times out while
everything else succeeds (claim C3). -/
def bobTimeoutInput : ApiCandInput :=
  { apiOutcome := .ok bobFields
    pinnedOutcome := .error .timeout
    streakOutcome := .ok "200 contributions in the last year"
    reposOutcome := .ok [some "Python"]
    contribOutcome := .ok "200 contributions in the last year" }

/-- Streamlit structured fields for the claim C3 witness. -/
def carolFields : StApiFields :=
  { login := "carol", name := none, bio := some "python dev"
    loc := none, public_repos := 2, followers := 0 }

/-- A Streamlit candidate whose contribution fetch and details page both
time out (claim C3 witness). -/
def carolInput : StCandInput :=
  { apiOutcome := .ok carolFields
    langsOutcome := .ok ["Python"]
    contribOutcome := .error .timeout
    detailsOutcome := .error .timeout }

/-- The candidate the Streamlit pipeline builds for `carolInput`:
scraped fields degraded to their documented defaults, scored from the
structured fields plus those defaults (claim C3 witness). -/
def carolCandidate : StCandidate :=
  { data :=
      { login := "carol", name := "carol", bio := some "python dev"
        loc := none, public_repos := 2, followers := 0
        profile_url := "https://github.com/carol"
        languages := [("Python", 1)], contributions := 0
        pinned_repos := [], contribution_streak := "N/A" }
    score := 19
    explanation := "Bio matches 1 key terms (+10) | Uses 1 languages (+5) | Has 0 contributions (+0) | Has 2 public repos (+4) | Has 0 followers (+0)" }

/-- A record with empty bio and all-zero metrics: every subtotal of the
Streamlit `calculate_score` is zero (claim C4). -/
def zeroStData : StUserData :=
  { login := "d", name := "d", bio := none, loc := none
    public_repos := 0, followers := 0, profile_url := ""
    languages := [], contributions := 0, pinned_repos := []
    contribution_streak := "N/A" }

/-! ## General lemmas about the stable descending sort -/

theorem insertDesc_perm {α β : Type} [LinearOrder β] (key : α → β) (x : α) :
    ∀ l : List α, (insertDesc key x l).Perm (x :: l) := by
  intro l
  induction l with
  | nil => simp [insertDesc]
  | cons y ys ih =>
    simp only [insertDesc]
    by_cases h : key x ≤ key y
    · simp only [if_pos h]
      exact (ih.cons y).trans (List.Perm.swap x y ys)
    · simp only [if_neg h]
      exact List.Perm.refl _

theorem mem_insertDesc {α β : Type} [LinearOrder β] (key : α → β)
    (x a : α) (l : List α) :
    a ∈ insertDesc key x l ↔ a = x ∨ a ∈ l := by
  rw [(insertDesc_perm key x l).mem_iff, List.mem_cons]

theorem pairwise_insertDesc {α β : Type} [LinearOrder β] (key : α → β)
    (x : α) :
    ∀ l : List α, l.Pairwise (fun a b => key b ≤ key a) →
      (insertDesc key x l).Pairwise (fun a b => key b ≤ key a) := by
  intro l
  induction l with
  | nil => intro _; simp [insertDesc]
  | cons y ys ih =>
    intro h
    rcases List.pairwise_cons.mp h with ⟨h1, h2⟩
    simp only [insertDesc]
    by_cases hxy : key x ≤ key y
    · simp only [if_pos hxy]
      refine List.pairwise_cons.mpr ⟨?_, ih h2⟩
      intro b hb
      rcases (mem_insertDesc key x b ys).mp hb with rfl | hbys
      · exact hxy
      · exact h1 b hbys
    · simp only [if_neg hxy]
      have hyx : key y ≤ key x := (not_le.mp hxy).le
      refine List.pairwise_cons.mpr ⟨?_, h⟩
      intro b hb
      rcases List.mem_cons.mp hb with rfl | hbys
      · exact hyx
      · exact (h1 b hbys).trans hyx

theorem filter_insertDesc_pos {α β : Type} [LinearOrder β] (key : α → β)
    (s : β) (x : α) (hx : key x = s) :
    ∀ l : List α, l.Pairwise (fun a b => key b ≤ key a) →
      (insertDesc key x l).filter (fun a => key a = s)
        = l.filter (fun a => key a = s) ++ [x] := by
  intro l
  induction l with
  | nil => intro _; simp [insertDesc, hx]
  | cons y ys ih =>
    intro h
    rcases List.pairwise_cons.mp h with ⟨h1, h2⟩
    simp only [insertDesc]
    by_cases hxy : key x ≤ key y
    · simp only [if_pos hxy, List.filter_cons]
      by_cases hy : key y = s
      · simp [hy, ih h2]
      · simp [hy, ih h2]
    · simp only [if_neg hxy]
      have hlt : key y < key x := not_le.mp hxy
      have hnone : ∀ b ∈ y :: ys, ¬ (key b = s) := by
        intro b hb hbs
        have hble : key b ≤ key y := by
          rcases List.mem_cons.mp hb with rfl | hbys
          · exact le_refl _
          · exact h1 b hbys
        have : key b < key x := lt_of_le_of_lt hble hlt
        rw [hbs, hx] at this
        exact lt_irrefl s this
      have hemp : (y :: ys).filter (fun a => key a = s) = [] := by
        rw [List.filter_eq_nil_iff]
        intro b hb
        simpa using hnone b hb
      rw [List.filter_cons, hemp]
      simp [hx]

theorem filter_insertDesc_neg {α β : Type} [LinearOrder β] (key : α → β)
    (s : β) (x : α) (hx : ¬ key x = s) :
    ∀ l : List α,
      (insertDesc key x l).filter (fun a => key a = s)
        = l.filter (fun a => key a = s) := by
  intro l
  induction l with
  | nil => simp [insertDesc, hx]
  | cons y ys ih =>
    simp only [insertDesc]
    by_cases hxy : key x ≤ key y
    · simp only [if_pos hxy, List.filter_cons, ih]
    · simp only [if_neg hxy, List.filter_cons]
      simp [hx]

theorem sortFold_pairwise {α β : Type} [LinearOrder β] (key : α → β) :
    ∀ (l acc : List α), acc.Pairwise (fun a b => key b ≤ key a) →
      (l.foldl (fun a x => insertDesc key x a) acc).Pairwise
        (fun a b => key b ≤ key a) := by
  intro l
  induction l with
  | nil => intro acc h; exact h
  | cons x xs ih =>
    intro acc h
    exact ih (insertDesc key x acc) (pairwise_insertDesc key x acc h)

theorem sortFold_perm {α β : Type} [LinearOrder β] (key : α → β) :
    ∀ (l acc : List α),
      (l.foldl (fun a x => insertDesc key x a) acc).Perm (acc ++ l) := by
  intro l
  induction l with
  | nil => intro acc; simp
  | cons x xs ih =>
    intro acc
    refine (ih (insertDesc key x acc)).trans ?_
    refine (List.Perm.append_right xs (insertDesc_perm key x acc)).trans ?_
    exact List.perm_middle.symm

theorem sortFold_filter {α β : Type} [LinearOrder β] (key : α → β) (s : β) :
    ∀ (l acc : List α), acc.Pairwise (fun a b => key b ≤ key a) →
      (l.foldl (fun a x => insertDesc key x a) acc).filter
          (fun a => key a = s)
        = acc.filter (fun a => key a = s) ++ l.filter (fun a => key a = s) := by
  intro l
  induction l with
  | nil => intro acc _; simp
  | cons x xs ih =>
    intro acc h
    have hrec := ih (insertDesc key x acc) (pairwise_insertDesc key x acc h)
    simp only [List.foldl_cons] at hrec ⊢
    rw [hrec]
    by_cases hx : key x = s
    · rw [filter_insertDesc_pos key s x hx acc h, List.filter_cons]
      simp [hx, List.append_assoc]
    · rw [filter_insertDesc_neg key s x hx acc, List.filter_cons]
      simp [hx]

theorem sortByScoreDesc_pairwise {α β : Type} [LinearOrder β]
    (key : α → β) (l : List α) :
    (sortByScoreDesc key l).Pairwise (fun a b => key b ≤ key a) :=
  sortFold_pairwise key l [] List.Pairwise.nil

theorem sortByScoreDesc_perm {α β : Type} [LinearOrder β]
    (key : α → β) (l : List α) : (sortByScoreDesc key l).Perm l := by
  have := sortFold_perm key l []
  simpa [sortByScoreDesc] using this

theorem sortByScoreDesc_filter {α β : Type} [LinearOrder β]
    (key : α → β) (s : β) (l : List α) :
    (sortByScoreDesc key l).filter (fun a => key a = s)
      = l.filter (fun a => key a = s) := by
  have := sortFold_filter key s l [] List.Pairwise.nil
  simpa [sortByScoreDesc] using this

theorem insertDesc_map {α β : Type} [LinearOrder β] (key : α → β)
    (g : α → α) (hg : ∀ a, key (g a) = key a) (x : α) :
    ∀ l : List α,
      insertDesc key (g x) (l.map g) = (insertDesc key x l).map g := by
  intro l
  induction l with
  | nil => simp [insertDesc]
  | cons y ys ih =>
    simp only [List.map_cons, insertDesc, hg]
    by_cases h : key x ≤ key y
    · simp [h, ih]
    · simp [h]

theorem sortFold_map {α β : Type} [LinearOrder β] (key : α → β)
    (g : α → α) (hg : ∀ a, key (g a) = key a) :
    ∀ (l acc : List α),
      (l.map g).foldl (fun a x => insertDesc key x a) (acc.map g)
        = (l.foldl (fun a x => insertDesc key x a) acc).map g := by
  intro l
  induction l with
  | nil => intro acc; rfl
  | cons x xs ih =>
    intro acc
    simp only [List.map_cons, List.foldl_cons]
    rw [insertDesc_map key g hg x acc]
    exact ih (insertDesc key x acc)

theorem sortByScoreDesc_map {α β : Type} [LinearOrder β] (key : α → β)
    (g : α → α) (hg : ∀ a, key (g a) = key a) (l : List α) :
    sortByScoreDesc key (l.map g) = (sortByScoreDesc key l).map g := by
  have := sortFold_map key g hg l []
  simpa [sortByScoreDesc] using this

theorem appendLoop_eq_filterMap {ι γ : Type} (f : ι → Option γ) :
    ∀ users : List ι, appendLoop f users = users.filterMap f := by
  have aux : ∀ (users : List ι) (acc : List γ),
      users.foldl (fun a u =>
        match f u with
        | none => a
        | some c => a ++ [c]) acc = acc ++ users.filterMap f := by
    intro users
    induction users with
    | nil => intro acc; simp
    | cons u us ih =>
      intro acc
      simp only [List.foldl_cons, List.filterMap_cons]
      cases hf : f u with
      | none => simpa using ih acc
      | some c => rw [ih (acc ++ [c])]; simp
  intro users
  simpa using aux users []

/-! ## Lemmas about banker's rounding -/

theorem bankersRound_intCast (m : ℤ) : bankersRound (m : ℚ) = m := by
  unfold bankersRound
  rw [Int.floor_intCast, sub_self]
  norm_num

theorem bankersRound_nonneg {x : ℚ} (hx : 0 ≤ x) : 0 ≤ bankersRound x := by
  have h0 : (0 : ℤ) ≤ ⌊x⌋ := Int.floor_nonneg.mpr hx
  unfold bankersRound
  split_ifs <;> omega

theorem bankersRound_le {x : ℚ} {c : ℤ} (hx : x ≤ (c : ℚ)) :
    bankersRound x ≤ c := by
  have h1 : ⌊x⌋ ≤ c := by
    have h := Int.floor_le_floor hx
    rwa [Int.floor_intCast] at h
  have hkey : (1 : ℚ)/2 ≤ x - ⌊x⌋ → ⌊x⌋ < c := by
    intro hf
    rcases lt_or_eq_of_le h1 with h | h
    · exact h
    · exfalso
      have hxle : x ≤ ((⌊x⌋ : ℤ) : ℚ) := by rw [h]; exact hx
      linarith
  unfold bankersRound
  split_ifs with ha hb hc
  · exact h1
  · have := hkey (le_of_lt hb)
    omega
  · exact h1
  · have := hkey (not_lt.mp ha)
    omega

theorem pythonRound2_intCast (m : ℤ) : pythonRound2 (m : ℚ) = (m : ℚ) := by
  unfold pythonRound2
  have h : ((m : ℚ) * 100) = ((m * 100 : ℤ) : ℚ) := by push_cast; ring
  rw [h, bankersRound_intCast]
  push_cast
  field_simp

theorem pythonRound2_natCast (n : ℕ) : pythonRound2 (n : ℚ) = (n : ℚ) := by
  have h := pythonRound2_intCast (n : ℤ)
  push_cast at h
  exact h

theorem pythonRound2_idem (x : ℚ) :
    pythonRound2 (pythonRound2 x) = pythonRound2 x := by
  unfold pythonRound2
  have h1 : ((bankersRound (x * 100) : ℚ) / 100) * 100
      = ((bankersRound (x * 100) : ℚ)) := by field_simp
  rw [h1, bankersRound_intCast]

theorem pythonRound2_nonneg {x : ℚ} (hx : 0 ≤ x) : 0 ≤ pythonRound2 x := by
  unfold pythonRound2
  have h := bankersRound_nonneg (x := x * 100) (by positivity)
  have h' : (0 : ℚ) ≤ (bankersRound (x * 100) : ℚ) := by exact_mod_cast h
  positivity

theorem pythonRound2_le_hundred {x : ℚ} (hx : x ≤ 100) :
    pythonRound2 x ≤ 100 := by
  have h : bankersRound (x * 100) ≤ (10000 : ℤ) := by
    apply bankersRound_le
    push_cast
    linarith
  unfold pythonRound2
  rw [div_le_iff₀ (by norm_num : (0 : ℚ) < 100)]
  calc (bankersRound (x * 100) : ℚ) ≤ ((10000 : ℤ) : ℚ) := by exact_mod_cast h
    _ = 100 * 100 := by norm_num

/-! ## Supporting facts about the scoring functions -/

theorem calcScoreExplSt_fst_le (u : StUserData) (req : String) :
    (calcScoreExplSt u req).1 ≤ 100 :=
  Nat.min_le_right _ _

theorem calculateScoreApi_nonneg (d : ApiDetails) :
    0 ≤ calculateScoreApi d := by
  unfold calculateScoreApi
  apply pythonRound2_nonneg
  refine le_min ?_ (by norm_num)
  refine add_nonneg (add_nonneg (add_nonneg (add_nonneg (add_nonneg
    (add_nonneg ?_ ?_) ?_) ?_) ?_) ?_) ?_
  · exact mul_nonneg (div_nonneg (le_min (by positivity) (by norm_num))
      (by norm_num)) (by norm_num)
  · exact mul_nonneg (div_nonneg (le_min (by positivity) (by norm_num))
      (by norm_num)) (by norm_num)
  · exact mul_nonneg (div_nonneg (le_min (by positivity) (by norm_num))
      (by norm_num)) (by norm_num)
  · exact le_min (by positivity) (by norm_num)
  · split <;> norm_num
  · split <;> norm_num
  · positivity

theorem calculateScoreApi_le (d : ApiDetails) : calculateScoreApi d ≤ 100 := by
  unfold calculateScoreApi
  exact pythonRound2_le_hundred (min_le_right _ _)

theorem calculateScoreApi_round (d : ApiDetails) :
    pythonRound2 (calculateScoreApi d) = calculateScoreApi d := by
  unfold calculateScoreApi
  exact pythonRound2_idem _

theorem bioScoreSt_eq (bio : Option String) (req : String) :
    bioScoreSt bio req
      = (bioMatchCountSt bio req * 10,
         if bioMatchCountSt bio req ≠ 0
         then [bioLine (bioMatchCountSt bio req)
                 (bioMatchCountSt bio req * 10)]
         else []) := by
  unfold bioScoreSt bioMatchCountSt
  cases bio with
  | none => simp
  | some b =>
    by_cases hb : b = ""
    · simp [hb]
    · by_cases hc : ((wordTokens req).toFinset ∩ (wordTokens b).toFinset).card = 0
      · simp [hb, hc]
      · simp [hb, hc]

/-! ## Claim theorems -/

/-- C1: for every candidate record with non-negative integer fields, the
score returned by `calculate_score` lies in `[0, 100]` and rounding it to
two decimal places again changes nothing, in both the FastAPI and the
Streamlit variant (non-negativity of the numeric fields is enforced by the
`Nat` field types of the embedded records). -/
theorem score_in_range_and_round_idempotent :
    (∀ d : ApiDetails,
      0 ≤ calculateScoreApi d ∧ calculateScoreApi d ≤ 100
      ∧ pythonRound2 (calculateScoreApi d) = calculateScoreApi d)
    ∧ (∀ (u : StUserData) (req : String),
      (0 : ℚ) ≤ ((calcScoreExplSt u req).1 : ℚ)
      ∧ (calcScoreExplSt u req).1 ≤ 100
      ∧ pythonRound2 ((calcScoreExplSt u req).1 : ℚ)
          = ((calcScoreExplSt u req).1 : ℚ)) := by
  constructor
  · intro d
    exact ⟨calculateScoreApi_nonneg d, calculateScoreApi_le d,
      calculateScoreApi_round d⟩
  · intro u req
    exact ⟨by positivity, calcScoreExplSt_fst_le u req,
      pythonRound2_natCast _⟩

/-- C10: in the Streamlit variant the score is an exact integer — its
rational image is a natural number and applying the FastAPI variant's
2-decimal rounding to it changes nothing (the code applies no rounding:
every subtotal is integer multiplication, integer floor division, or a
`min` with an integer cap). -/
theorem streamlit_score_is_exact_integer :
    ∀ (u : StUserData) (req : String),
      (∃ n : ℤ, ((calcScoreExplSt u req).1 : ℚ) = (n : ℚ))
      ∧ pythonRound2 ((calcScoreExplSt u req).1 : ℚ)
          = ((calcScoreExplSt u req).1 : ℚ) := by
  intro u req
  exact ⟨⟨((calcScoreExplSt u req).1 : ℤ), by push_cast; ring⟩,
    pythonRound2_natCast _⟩

/-- C5: the ranker (`sorted(..., key=score, reverse=True)` /
`candidates.sort(key=score, reverse=True)`) returns the scored records of
any batch sorted descending by score, as a permutation of the input, and
stably: for every score value, the sub-sequence of records having that
score is exactly the input's sub-sequence, so equal-score records keep
their original aggregation order.  Stated for both variants' candidate
types. -/
theorem ranker_sorts_descending_and_stable :
    (∀ l : List ApiCandidate,
      (sortByScoreDesc (fun c => c.score) l).Pairwise
          (fun a b => b.score ≤ a.score)
      ∧ (sortByScoreDesc (fun c => c.score) l).Perm l
      ∧ ∀ s : ℚ, (sortByScoreDesc (fun c => c.score) l).filter
            (fun c => c.score = s)
          = l.filter (fun c => c.score = s))
    ∧ (∀ l : List StCandidate,
      (sortByScoreDesc (fun c => c.score) l).Pairwise
          (fun a b => b.score ≤ a.score)
      ∧ (sortByScoreDesc (fun c => c.score) l).Perm l
      ∧ ∀ s : Nat, (sortByScoreDesc (fun c => c.score) l).filter
            (fun c => c.score = s)
          = l.filter (fun c => c.score = s)) := by
  constructor
  · intro l
    exact ⟨sortByScoreDesc_pairwise _ l, sortByScoreDesc_perm _ l,
      fun s => sortByScoreDesc_filter _ s l⟩
  · intro l
    exact ⟨sortByScoreDesc_pairwise _ l, sortByScoreDesc_perm _ l,
      fun s => sortByScoreDesc_filter _ s l⟩

/-- C6: for every record whose bio is absent (`None`) or empty, the
keyword-overlap subtotal of the Streamlit `calculate_score` is exactly 0,
whatever the requirement text. -/
theorem empty_bio_gives_zero_overlap_subtotal :
    ∀ (req : String) (bio : Option String),
      bio = none ∨ bio = some "" → bioSubtotalSt bio req = 0 := by
  rintro req bio (rfl | rfl)
  · rfl
  · simp [bioSubtotalSt, bioScoreSt]

/-- Witness for C6 at a concrete empty bio and requirement. -/
theorem empty_bio_gives_zero_overlap_subtotal_witness :
    ((some "" : Option String) = none ∨ (some "" : Option String) = some "")
    ∧ bioSubtotalSt (some "") "machine learning" = 0 :=
  ⟨Or.inr rfl,
   empty_bio_gives_zero_overlap_subtotal "machine learning" (some "")
     (Or.inr rfl)⟩

/-- C7: for a fixed bio, if the second requirement's extracted keyword set
contains the first's, the bio-overlap subtotal for the second requirement
is at least the subtotal for the first. -/
theorem bio_overlap_monotone_in_keywords :
    ∀ (bio : Option String) (r1 r2 : String),
      (wordTokens r1).toFinset ⊆ (wordTokens r2).toFinset →
      bioSubtotalSt bio r1 ≤ bioSubtotalSt bio r2 := by
  intro bio r1 r2 h
  have heq : ∀ r, bioSubtotalSt bio r = bioMatchCountSt bio r * 10 := by
    intro r
    rw [bioSubtotalSt, bioScoreSt_eq]
  rw [heq r1, heq r2]
  have hcount : bioMatchCountSt bio r1 ≤ bioMatchCountSt bio r2 := by
    unfold bioMatchCountSt
    cases bio with
    | none => exact le_refl 0
    | some b =>
      by_cases hb : b = ""
      · simp [hb]
      · simp only [if_neg hb]
        exact Finset.card_le_card
          (Finset.inter_subset_inter h (Finset.Subset.refl _))
  exact mul_le_mul_right' hcount 10

/-- Witness for C7 at concrete requirements and bio. -/
theorem bio_overlap_monotone_in_keywords_witness :
    ((wordTokens "python").toFinset
        ⊆ (wordTokens "senior python developer").toFinset)
    ∧ bioSubtotalSt (some "python engineer") "python"
        ≤ bioSubtotalSt (some "python engineer") "senior python developer" :=
  ⟨by decide,
   bio_overlap_monotone_in_keywords (some "python engineer") "python"
     "senior python developer" (by decide)⟩

/-- C2 (counterexample): a structured-source authentication error raised
while processing the first candidate does NOT fail the run — the
per-candidate `except Exception: continue` swallows it, the candidate is
dropped, and a partial ranked list (here, the second candidate) is
returned. -/
theorem auth_error_mid_batch_returns_partial_list :
    searchCandidatesApi (fun _ => Except.ok [authFailInput, aliceInput])
      "python" = Except.ok [mkCandidateApi aliceDetails "python"] := rfl

/-- C2 (amended): both `search_candidates` variants factor through the
user-search outcome: an error raised by the user-search step itself (or
client initialisation) propagates and aborts the run, but EVERY exception
raised while processing an individual candidate — including
`AuthenticationError` — is caught by the per-candidate handler, the
candidate is dropped (`filterMap`), and the remaining candidates are
returned as a ranked list. -/
theorem auth_error_isolation_amended :
    (∀ (f : String → Except ErrKind (List ApiCandInput)) (req : String),
      searchCandidatesApi f req
        = Except.map
            (fun users => sortByScoreDesc (fun c => c.score)
              ((users.take 10).filterMap (processUserApi req)))
            (f (req ++ " type:user")))
    ∧ (∀ (g : String → Except ErrKind (List StCandInput)) (req : String)
        (loc lang : Option String) (limit : Nat),
      searchCandidatesSt g req loc lang limit
        = Except.map
            (fun users => sortByScoreDesc (fun c => c.score)
              ((users.take limit).filterMap (processUserSt req)))
            (g (buildQuerySt req loc lang))) := by
  constructor
  · intro f req
    cases h : f (req ++ " type:user") with
    | error e => simp [searchCandidatesApi, h, Except.map]
    | ok users =>
      simp [searchCandidatesApi, h, Except.map, searchLoopApi,
        appendLoop_eq_filterMap]
  · intro g req loc lang limit
    cases h : g (buildQuerySt req loc lang) with
    | error e => simp [searchCandidatesSt, h, Except.map]
    | ok users =>
      simp [searchCandidatesSt, h, Except.map, searchLoopSt,
        appendLoop_eq_filterMap]

/-- C3 (counterexample): in the FastAPI variant a candidate whose
scraped-source fetch (the pinned-repositories wait) times out mid-batch is
NOT kept with default scraped fields — `get_user_details` re-raises, the
per-candidate handler drops the candidate, and the run's output is empty. -/
theorem scraped_timeout_drops_candidate_in_api_variant :
    searchCandidatesApi (fun _ => Except.ok [bobTimeoutInput]) "python"
      = Except.ok [] := rfl

/-- C3 (amended): in the Streamlit variant the claim holds — scraped-source
failures never propagate: the record gets `contributions = 0`,
`pinned_repos = []`, `contribution_streak = "N/A"`, stays in the ranked
output, and is scored from the structured fields plus those defaults.  In
the FastAPI variant a scraped-fetch failure inside `get_user_details`
propagates to the per-candidate handler and the candidate is dropped. -/
theorem scraped_failure_defaults_amended :
    (∀ (req : String) (i : StCandInput) (fields : StApiFields),
        i.apiOutcome = Except.ok fields →
        ∀ e e2 : ErrKind, i.detailsOutcome = Except.error e →
          i.contribOutcome = Except.error e2 →
          ∃ c : StCandidate,
            processUserSt req i = some c
            ∧ c.data.contributions = 0
            ∧ c.data.pinned_repos = []
            ∧ c.data.contribution_streak = "N/A"
            ∧ c.score = (calcScoreExplSt c.data req).1)
    ∧ (∀ (req : String) (i : ApiCandInput) (e : ErrKind),
        i.pinnedOutcome = Except.error e → processUserApi req i = none)
    ∧ (∀ (req : String) (users : List StCandInput) (i : StCandInput)
        (c : StCandidate), i ∈ users → processUserSt req i = some c →
        c ∈ sortByScoreDesc (fun x => x.score) (searchLoopSt req users)) := by
  refine ⟨?_, ?_, ?_⟩
  · intro req i fields hapi e e2 hdet hcontrib
    simp only [processUserSt, hapi]
    refine ⟨_, rfl, ?_, ?_, ?_, rfl⟩
    · simp [getContributionCountSt, hcontrib]
    · simp [getUserDetailsSt, hdet]
    · simp [getUserDetailsSt, hdet]
  · intro req i e hpin
    cases hapi : i.apiOutcome with
    | error e2 => simp [processUserApi, getUserDetailsApi, hapi]
    | ok u => simp [processUserApi, getUserDetailsApi, hapi, hpin]
  · intro req users i c hi hc
    have hmem : c ∈ searchLoopSt req users := by
      rw [searchLoopSt, appendLoop_eq_filterMap]
      exact List.mem_filterMap.mpr ⟨i, hi, hc⟩
    exact ((sortByScoreDesc_perm (fun x => x.score)
      (searchLoopSt req users)).mem_iff).mpr hmem

/-- Witness for the amended C3 at concrete timed-out fetches. -/
theorem scraped_failure_defaults_amended_witness :
    (∃ c : StCandidate,
        processUserSt "python" carolInput = some c
        ∧ c.data.contributions = 0
        ∧ c.data.pinned_repos = []
        ∧ c.data.contribution_streak = "N/A"
        ∧ c.score = (calcScoreExplSt c.data "python").1)
    ∧ processUserApi "python" bobTimeoutInput = none
    ∧ carolCandidate ∈ sortByScoreDesc (fun x => x.score)
        (searchLoopSt "python" [carolInput]) :=
  ⟨scraped_failure_defaults_amended.1 "python" carolInput carolFields rfl
     ErrKind.timeout ErrKind.timeout rfl rfl,
   scraped_failure_defaults_amended.2.1 "python" bobTimeoutInput
     ErrKind.timeout rfl,
   scraped_failure_defaults_amended.2.2 "python" [carolInput] carolInput
     carolCandidate (List.mem_singleton.mpr rfl) (by decide)⟩

/-- C4 (counterexample): for a record whose every subtotal is zero, the
Streamlit explanation sequence is NOT the (empty) sequence of non-zero
subtotals: the language, contribution, repository and follower lines are
emitted even with `(+0)`. -/
theorem explanation_contains_zero_subtotals :
    (calcScoreExplSt zeroStData "python").2
      = ["Uses 0 languages (+0)", "Has 0 contributions (+0)",
         "Has 0 public repos (+0)", "Has 0 followers (+0)"]
    ∧ (calcScoreExplSt zeroStData "python").2 ≠ ([] : List String) := by
  exact ⟨by decide, by decide⟩

/-- C4 (amended): the Streamlit explanation is the deterministic ordered
sequence of `"<label> (+<points>)"` lines in computation order, where the
bio line appears exactly when the keyword overlap is non-zero but the
language, contribution, repository and follower lines appear even when
their subtotal is zero.  The FastAPI variant does not emit subtotal lines
at all: its explanation is the single string
`"Matched based on <requirement>"`. -/
theorem explanation_structure_amended :
    (∀ (d : StUserData) (req : String),
      (calcScoreExplSt d req).2
        = (if bioMatchCountSt d.bio req ≠ 0
           then [bioLine (bioMatchCountSt d.bio req)
                   (bioMatchCountSt d.bio req * 10)]
           else [])
          ++ [langLine d.languages.length (min (d.languages.length * 5) 25),
              contribLine d.contributions (min (d.contributions / 100) 25),
              repoLine d.public_repos (min (d.public_repos * 2) 25),
              followerLine d.followers (min (d.followers / 10) 25)])
    ∧ (∀ (d : ApiDetails) (req : String),
        (mkCandidateApi d req).explanation = "Matched based on " ++ req) := by
  constructor
  · intro d req
    simp [calcScoreExplSt, bioScoreSt_eq]
  · intro d req
    rfl

/-- C8 (counterexample): a search with an empty requirement does NOT fail
with `InvalidRequestError` before any network call: the FastAPI variant
builds the query `" type:user"` and invokes the provider search with it
(the outcome of the run is whatever the provider call produces), and the
Streamlit variant likewise proceeds. -/
theorem empty_requirement_reaches_network :
    searchCandidatesApi (fun _ => Except.ok []) "" = Except.ok []
    ∧ searchCandidatesApi
        (fun q => if q = " type:user" then Except.error ErrKind.rateLimit
          else Except.ok []) "" = Except.error ErrKind.rateLimit
    ∧ searchCandidatesSt (fun _ => Except.ok []) "" none none 50
        = Except.ok [] :=
  ⟨rfl, rfl, rfl⟩

/-- C8 (amended): neither variant validates the requirement and the
query-building step never fails — no code path raises
`InvalidRequestError`.  An empty requirement yields the query
`" type:user"` (FastAPI) or `""` plus the optional filters (Streamlit),
the provider search is still invoked, and the run fails only if that
provider call fails.  (The Streamlit UI layer separately rejects empty
input with an error message before constructing the finder.) -/
theorem empty_requirement_amended :
    (∀ e : ErrKind,
      searchCandidatesApi (fun _ => Except.error e) "" = Except.error e)
    ∧ (∀ users : List ApiCandInput, ∃ l,
        searchCandidatesApi (fun _ => Except.ok users) "" = Except.ok l)
    ∧ buildQuerySt "" none none = "" :=
  ⟨fun _ => rfl, fun _ => ⟨_, rfl⟩, rfl⟩

theorem processUserApi_reExpl (r1 r2 : String) (i : ApiCandInput) :
    processUserApi r2 i = (processUserApi r1 i).map (reExplApi r2) := by
  cases h : getUserDetailsApi i with
  | error e => simp [processUserApi, h]
  | ok d => simp [processUserApi, h, mkCandidateApi, reExplApi]

/-- C9: in the FastAPI variant the score is independent of the requirement
text: `calculate_score` takes no requirement argument, so two candidates
built from the same details under different requirements get the same
score, and two whole runs over the same fetched user data but different
requirements produce identical ranked score sequences (only the
explanations differ). -/
theorem api_score_independent_of_requirement :
    ∀ r1 r2 : String,
      (∀ d : ApiDetails,
        (mkCandidateApi d r1).score = (mkCandidateApi d r2).score)
      ∧ ∀ users : List ApiCandInput,
        Except.map (List.map (fun c => c.score))
            (searchCandidatesApi (fun _ => Except.ok users) r1)
          = Except.map (List.map (fun c => c.score))
              (searchCandidatesApi (fun _ => Except.ok users) r2) := by
  intro r1 r2
  refine ⟨fun d => rfl, fun users => ?_⟩
  have hloop : searchLoopApi r2 (users.take 10)
      = (searchLoopApi r1 (users.take 10)).map (reExplApi r2) := by
    rw [searchLoopApi, searchLoopApi, appendLoop_eq_filterMap,
      appendLoop_eq_filterMap]
    have hfun : processUserApi r2
        = fun i => (processUserApi r1 i).map (reExplApi r2) :=
      funext (processUserApi_reExpl r1 r2)
    rw [hfun, ← List.map_filterMap]
  have h1 : searchCandidatesApi (fun _ => Except.ok users) r1
      = Except.ok (sortByScoreDesc (fun c => c.score)
          (searchLoopApi r1 (users.take 10))) := rfl
  have h2 : searchCandidatesApi (fun _ => Except.ok users) r2
      = Except.ok (sortByScoreDesc (fun c => c.score)
          (searchLoopApi r2 (users.take 10))) := rfl
  rw [h1, h2, hloop,
    sortByScoreDesc_map (fun c => c.score) (reExplApi r2)
      (fun c => (rfl : (reExplApi r2 c).score = c.score))]
  simp only [Except.map, List.map_map]
  exact congrArg Except.ok (List.map_congr_left (fun a _ => rfl))
